import Mathlib

/-!
Verification of the vLCM (vSphere Lifecycle Manager) client core:
the asynchronous task poller (`WaitForCompletion` in the tasks manager),
the REST resource managers for offline depots and software drafts, and
the CLI `Run` methods.

The Go sources are embedded shallowly:

* JSON documents returned by the task-status endpoint are association
  lists from field names to `JsonVal` (a string value or any other JSON
  value, since the poller only ever inspects whether `status` is a
  string).
* The external `rest.Client` collaborator (`Resource`, `WithSubpath`,
  `WithParam`, `Request`, `Do`) is not part of the sources under
  verification; it is modelled from the spec's collaborator contract.
  In Go, `Resource.WithParam` mutates the underlying URL in place and
  returns the same pointer, so the embedding threads the updated
  resource value through.
* The network is an oracle: each manager operation takes the outcome of
  its single HTTP exchange as an argument, and the poller takes the
  sequence of per-attempt fetch results as a function `Nat → FetchResult`.
* The poller's infinite `for` loop is embedded with explicit fuel; the
  loop "never returns" iff the runner yields `none` for every fuel.
-/

namespace Govmomi

/-- A JSON value as seen by the poller: it distinguishes only string
values (the only shape the `.(string)` assertion accepts) from every
other JSON value. -/
inductive JsonVal where
  | str (s : String)
  | other
deriving DecidableEq, Repr

/-- A decoded JSON object (Go `map[string]interface{}`), as an
association list. -/
abbrev TaskDoc := List (String × JsonVal)

/-- A Go `error` value, modelled by its message. -/
abbrev GoError := String

/-- Go map lookup `doc["k"]`: `none` models the missing-key case (a nil
interface value in Go). -/
def lookupField (doc : TaskDoc) (k : String) : Option JsonVal :=
  match doc with
  | [] => none
  | (k', v) :: rest => if k' = k then some v else lookupField rest k

/-- HTTP verbs used by the managers. -/
inductive Method where
  | GET
  | POST
  | PATCH
  | DELETE
deriving DecidableEq, Repr

/-- Modelled from the spec: the external REST client's resource builder.
"Resolve a base path optionally augmented with a single path-appended
identifier (sub-path). Attach zero or more query parameters, including
comma-joined multi-value parameters." -/
structure Resource where
  path : String
  subpaths : List String
  params : List (String × String)
deriving DecidableEq, Repr

/-- Modelled from the spec: `c.Resource(basePath)` resolves a base path
with no sub-path and no query parameters yet. -/
def Resource.base (basePath : String) : Resource :=
  { path := basePath, subpaths := [], params := [] }

/-- Modelled from the spec: `WithSubpath` appends one path segment. -/
def Resource.withSubpath (r : Resource) (s : String) : Resource :=
  { r with subpaths := r.subpaths ++ [s] }

/-- Modelled from the spec: `WithParam` attaches one query parameter.
In Go this mutates the resource's underlying URL in place and returns
the same pointer; the embedding returns the updated resource value. -/
def Resource.withParam (r : Resource) (name value : String) : Resource :=
  { r with params := r.params ++ [(name, value)] }

/-- The rendered URL path of a resource: base path with each sub-path
segment appended after a `/`. -/
def Resource.fullPath (r : Resource) : String :=
  r.subpaths.foldl (fun acc s => acc ++ "/" ++ s) r.path

/-- One HTTP request as built by `path.Request(method[, body])`; the body
is the optional JSON payload. -/
structure Request where
  method : Method
  resource : Resource
  body : Option TaskDoc
deriving DecidableEq, Repr

/-- Modelled from the spec: the outcome of one `c.Do(ctx, req, &res)`
exchange — the decoded destination value (the zero value when nothing
was decoded) and the single uniform error channel. -/
structure Exchange (α : Type) where
  decoded : α
  err : Option GoError

/-! ### Tasks manager (`tasks` package) -/

/-- `TasksPath`: the endpoint for retrieving tasks. -/
def TasksPath : String := "/api/cis/tasks"

/-- The request issued by `getTaskInfo`:
`c.Resource(TasksPath).WithSubpath(taskId)` with method GET and no body. -/
def getTaskInfoRequest (taskId : String) : Request :=
  { method := Method.GET
    resource := (Resource.base TasksPath).withSubpath taskId
    body := none }

/-- The result of one `getTaskInfo` call as observed by the poller: the
decoded document `taskInfo` and the error channel `err`. -/
structure FetchResult where
  doc : TaskDoc
  err : Option GoError
deriving DecidableEq, Repr

/-- How one iteration of the `WaitForCompletion` loop body ends. -/
inductive PollOutcome where
  /-- `return status, nil`: the status differs from `"RUNNING"`. -/
  | done (status : String)
  /-- `return status, err`: the fetch failed but the status field was a
  string. -/
  | failed (status : String) (e : GoError)
  /-- The unchecked type assertion `taskInfo["status"].(string)` fired on
  a missing or non-string field: the process terminates abnormally. -/
  | panicked
deriving DecidableEq, Repr

/-- Whether an outcome is an error return (as opposed to a success
return or a crash). -/
def PollOutcome.isFailed : PollOutcome → Bool
  | PollOutcome.failed _ _ => true
  | _ => false

/-- One iteration of the loop body in `WaitForCompletion`, translated
line by line from the Go source:

```
taskInfo, err := c.getTaskInfo(taskId)
status := taskInfo["status"].(string)   // panics unless a string
if err != nil { return status, err }
if status != "RUNNING" { return status, nil }
```

`none` means the loop continues to the next tick. -/
def pollStep (r : FetchResult) : Option PollOutcome :=
  match lookupField r.doc "status" with
  | some (JsonVal.str s) =>
    match r.err with
    | some e => some (PollOutcome.failed s e)
    | none => if s = "RUNNING" then none else some (PollOutcome.done s)
  | _ => some PollOutcome.panicked

/-- The polling loop from attempt index `i` (0-based) with explicit
fuel. On termination it reports the 1-based number of attempts made
together with the outcome; `none` means the loop is still running after
`fuel` further ticks. -/
def waitFrom (fetch : Nat → FetchResult) : Nat → Nat → Option (Nat × PollOutcome)
  | _, 0 => none
  | i, fuel + 1 =>
    match pollStep (fetch i) with
    | some out => some (i + 1, out)
    | none => waitFrom fetch (i + 1) fuel

/-- `WaitForCompletion`, with the sequence of per-attempt fetch results
supplied as an oracle: attempt `i` observes `fetch i`, which is the
result of `getTaskInfo` on the `(i+1)`-th poll. -/
def WaitForCompletion (fetch : Nat → FetchResult) (fuel : Nat) :
    Option (Nat × PollOutcome) :=
  waitFrom fetch 0 fuel

/-- The number of `getTaskInfo` fetches the loop issues within `fuel`
ticks, starting at attempt index `i`. -/
def fetchesFrom (fetch : Nat → FetchResult) : Nat → Nat → Nat
  | _, 0 => 0
  | i, fuel + 1 =>
    match pollStep (fetch i) with
    | some _ => 1
    | none => 1 + fetchesFrom fetch (i + 1) fuel

/-- The ticker period in seconds: `time.NewTicker(time.Second * 10)`. -/
def tickInterval : Nat := 10

/-- The time (seconds after entry) at which attempt `i` (0-based) fires:
a Go ticker delivers its first tick one full period after creation, so
attempt `i` occurs at `tickInterval * (i + 1)`. -/
def fetchTime (i : Nat) : Nat := tickInterval * (i + 1)

/-- A fetch that succeeds with status `"RUNNING"`. -/
def runningOk : FetchResult :=
  { doc := [("status", JsonVal.str "RUNNING")], err := none }

/-- A fetch that succeeds with status `"SUCCEEDED"`. -/
def succeededOk : FetchResult :=
  { doc := [("status", JsonVal.str "SUCCEEDED")], err := none }

/-- The scenario status sequence RUNNING, RUNNING, SUCCEEDED. -/
def seqRRS : Nat → FetchResult :=
  fun i => if i < 2 then runningOk else succeededOk

/-- A fetch sequence whose first attempt succeeds with `"RUNNING"` and
whose second attempt fails (`err` non-nil) while the body still decoded
to a document with string status `"RUNNING"`. -/
def seqRunThenFail : Nat → FetchResult :=
  fun i => if i = 0 then runningOk
    else { doc := [("status", JsonVal.str "RUNNING")], err := some "boom" }

/-! ### Depots manager (`depots` package) -/

/-- `DepotsOfflinePath`: the endpoint for the offline depots API. -/
def DepotsOfflinePath : String := "/api/esx/settings/depots/offline"

/-- `DepotContentComponentsPath`: the endpoint for retrieving the
components in a depot. -/
def DepotContentComponentsPath : String :=
  "/api/esx/settings/depot-content/components"

/-- `SettingsDepotsOfflineCreateSpec`: the creation spec for an offline
depot. All fields are Go strings; every field except `SourceType`
carries the `omitempty` JSON option. -/
structure SettingsDepotsOfflineCreateSpec where
  Description : String
  SourceType : String
  FileId : String
  Location : String
  OwnerData : String
deriving DecidableEq, Repr

/-- Go `encoding/json` marshalling of `SettingsDepotsOfflineCreateSpec`:
fields are emitted in declaration order under their JSON tags; a string
field tagged `omitempty` is emitted iff it differs from the zero value
`""`. The result is the encoded JSON object as an association list. -/
def encodeCreateSpec (s : SettingsDepotsOfflineCreateSpec) :
    List (String × String) :=
  (if s.Description = "" then [] else [("description", s.Description)])
    ++ [("source_type", s.SourceType)]
    ++ (if s.FileId = "" then [] else [("file_id", s.FileId)])
    ++ (if s.Location = "" then [] else [("location", s.Location)])
    ++ (if s.OwnerData = "" then [] else [("owner_data", s.OwnerData)])

/-- Go `encoding/json` unmarshalling of one string field: an absent key
leaves the Go zero value `""` in place. -/
def lookupStr (obj : List (String × String)) (k : String) : String :=
  match obj with
  | [] => ""
  | (k', v) :: rest => if k' = k then v else lookupStr rest k

/-- Go `encoding/json` unmarshalling of a JSON object into
`SettingsDepotsOfflineCreateSpec`. -/
def decodeCreateSpec (obj : List (String × String)) :
    SettingsDepotsOfflineCreateSpec :=
  { Description := lookupStr obj "description"
    SourceType := lookupStr obj "source_type"
    FileId := lookupStr obj "file_id"
    Location := lookupStr obj "location"
    OwnerData := lookupStr obj "owner_data" }

/-- The request built by `DeleteOfflineDepot`:
`c.Resource(DepotsOfflinePath).WithSubpath(depotId).WithParam("vmw-task", "true")`
with method DELETE and no body. -/
def DeleteOfflineDepotRequest (depotId : String) : Request :=
  { method := Method.DELETE
    resource := ((Resource.base DepotsOfflinePath).withSubpath depotId).withParam
      "vmw-task" "true"
    body := none }

/-- `DeleteOfflineDepot`, with its single `c.Do` exchange supplied as an
oracle. Returns the Go return pair `(res, err)` together with the list
of requests actually issued. -/
def DeleteOfflineDepot (depotId : String)
    (doEx : Request → Exchange String) :
    (String × Option GoError) × List Request :=
  let req := DeleteOfflineDepotRequest depotId
  let ex := doEx req
  ((ex.decoded, ex.err), [req])

/-- The `addArrayParam` closure in `GetDepotContentComponents`:
`if value != nil && len(*value) > 0 { path.WithParam(name, strings.Join(*value, ",")) }`.
The Go closure's assignment to its local `path` pointer is immaterial
because `WithParam` mutates the resource in place; the embedding
threads the updated resource. -/
def addArrayParam (path : Resource) (name : String)
    (value : Option (List String)) : Resource :=
  match value with
  | some v => if 0 < v.length then path.withParam name (String.intercalate "," v)
      else path
  | none => path

/-- The request built by `GetDepotContentComponents`: the depot-content
components endpoint with the four optional comma-joined array filters
attached in source order, then the optional `min_version`, method GET,
no body. -/
def GetDepotContentComponentsRequest
    (bundleTypes names vendors versions : Option (List String))
    (minVersion : Option String) : Request :=
  let path := Resource.base DepotContentComponentsPath
  let path := addArrayParam path "bundle_types" bundleTypes
  let path := addArrayParam path "names" names
  let path := addArrayParam path "vendors" vendors
  let path := addArrayParam path "versions" versions
  let path := match minVersion with
    | some v => path.withParam "min_version" v
    | none => path
  { method := Method.GET, resource := path, body := none }

/-- Spec-side definition, for comparison with the request builders:
"Multi-value query parameters ... are omitted entirely from the request
when the input collection is empty or absent, and joined with a single
comma separator otherwise (order-preserving)" — i.e. the parameter list
a single multi-value filter contributes. -/
def specMultiValueParam (name : String) (value : Option (List String)) :
    List (String × String) :=
  match value with
  | some [] => []
  | some v => [(name, String.intercalate "," v)]
  | none => []

/-! ### Clusters software drafts manager (`clusters` package) -/

/-- `SoftwareDraftsPath` instantiated at a cluster:
`fmt.Sprintf("/api/esx/settings/clusters/%s/software/drafts", clusterId)`. -/
def SoftwareDraftsPathFor (clusterId : String) : String :=
  "/api/esx/settings/clusters/" ++ clusterId ++ "/software/drafts"

/-- The request built by `ListSoftwareDrafts`: the drafts endpoint for
the cluster, with `owners` attached as a comma-joined parameter iff the
pointer is non-nil and the list non-empty, method GET, no body. -/
def ListSoftwareDraftsRequest (clusterId : String)
    (owners : Option (List String)) : Request :=
  let path := Resource.base (SoftwareDraftsPathFor clusterId)
  let path := match owners with
    | some o => if 0 < o.length then path.withParam "owners" (String.intercalate "," o)
        else path
    | none => path
  { method := Method.GET, resource := path, body := none }

/-- The request built by `CommitSoftwareDraft`:
`c.Resource(fmt.Sprintf(SoftwareDraftsPath, clusterId)).WithSubpath(draftId).WithParam("action", "commit").WithParam("vmw-task", "true")`
with method POST and the spec as JSON body. -/
def CommitSoftwareDraftRequest (clusterId draftId : String)
    (spec : TaskDoc) : Request :=
  { method := Method.POST
    resource := (((Resource.base (SoftwareDraftsPathFor clusterId)).withSubpath
      draftId).withParam "action" "commit").withParam "vmw-task" "true"
    body := some spec }

/-- `CommitSoftwareDraft`, with its single `c.Do` exchange supplied as
an oracle: issues the commit request, decodes the response into a Go
string (the task id), and returns `(res, err)` with the request log. -/
def CommitSoftwareDraft (clusterId draftId : String) (spec : TaskDoc)
    (doEx : Request → Exchange String) :
    (String × Option GoError) × List Request :=
  let req := CommitSoftwareDraftRequest clusterId draftId spec
  let ex := doEx req
  ((ex.decoded, ex.err), [req])

/-! ### CLI `Run` methods -/

/-- An opaque handle for the `*rest.Client` produced by
`cmd.RestClient()`; `Option` models Go's nil pointer. -/
abbrev RestClient := String

/-- `clusters.NewManager(rc)` / `depots.NewManager(rc)`: wraps the
given (possibly nil) client without inspecting it. -/
structure ManagerHandle where
  client : Option RestClient

/-- How a CLI `Run` method ends: `return err` with a non-nil error, or
`return cmd.WriteResult(...)` on the fetched data. -/
inductive RunOutcome (α : Type) where
  | failed (e : GoError)
  | wrote (d : α)
deriving DecidableEq, Repr

/-- `ls.Run` of `govc/cluster/draft/component/ls.go`, translated line
by line. `restClient` is the pair returned by `cmd.RestClient()`; the
manager call is an oracle over the client the manager wraps.

```
rc, err := cmd.RestClient()
dm := clusters.NewManager(rc)
if d, err = dm.ListSoftwareDraftComponents(...); err != nil { return err }
return cmd.WriteResult(lsResult(d))
```

The `err` from `RestClient()` is never read before the manager call
overwrites it. -/
def componentLsRun {α : Type}
    (restClient : Option RestClient × Option GoError)
    (listSoftwareDraftComponents : Option RestClient → α × Option GoError) :
    RunOutcome α :=
  let rc := restClient.1
  let dm : ManagerHandle := { client := rc }
  match listSoftwareDraftComponents dm.client with
  | (_, some e) => RunOutcome.failed e
  | (d, none) => RunOutcome.wrote d

/-- `ls.Run` of the offline-depot `ls` command, same shape over
`dm.GetOfflineDepots()`. -/
def offlineLsRun {α : Type}
    (restClient : Option RestClient × Option GoError)
    (getOfflineDepots : Option RestClient → α × Option GoError) :
    RunOutcome α :=
  let rc := restClient.1
  let dm : ManagerHandle := { client := rc }
  match getOfflineDepots dm.client with
  | (_, some e) => RunOutcome.failed e
  | (d, none) => RunOutcome.wrote d

/-- `info.Run` of the draft-component `info` command, same shape over
`dm.GetSoftwareDraftComponent(...)`. -/
def componentInfoRun {α : Type}
    (restClient : Option RestClient × Option GoError)
    (getSoftwareDraftComponent : Option RestClient → α × Option GoError) :
    RunOutcome α :=
  let rc := restClient.1
  let dm : ManagerHandle := { client := rc }
  match getSoftwareDraftComponent dm.client with
  | (_, some e) => RunOutcome.failed e
  | (d, none) => RunOutcome.wrote d

/-! ### Helper lemmas -/

/-- A fetch that succeeds with status `"RUNNING"` keeps the loop going. -/
theorem pollStep_runningOk : pollStep runningOk = none := by decide

/-- If the first `n` attempts keep the loop going and attempt `n`
(0-based) produces an outcome, the loop stops there: it reports `n + 1`
attempts with that outcome and issues exactly the remaining
`n + 1 - i` fetches, for any sufficient fuel. -/
theorem waitFrom_stops (fetch : Nat → FetchResult) {n : Nat} {out : PollOutcome}
    (hrun : ∀ k, k < n → pollStep (fetch k) = none)
    (hn : pollStep (fetch n) = some out) :
    ∀ fuel i, i ≤ n → n < i + fuel →
      waitFrom fetch i fuel = some (n + 1, out) ∧
        fetchesFrom fetch i fuel = n + 1 - i := by
  intro fuel
  induction fuel with
  | zero => intro i hi hlt; omega
  | succ m ih =>
    intro i hi hlt
    rcases Nat.lt_or_ge i n with hlt' | hge
    · have hstep := hrun i hlt'
      have hrec := ih (i + 1) hlt' (by omega)
      constructor
      · simpa [waitFrom, hstep] using hrec.1
      · have := hrec.2
        simp only [fetchesFrom, hstep]
        omega
    · have hin : i = n := le_antisymm hi hge
      subst hin
      constructor
      · simp [waitFrom, hn]
      · simp [fetchesFrom, hn]

/-- If every attempt keeps the loop going, the loop never returns and
issues one fetch per tick. -/
theorem waitFrom_none_of_all_running (fetch : Nat → FetchResult)
    (hrun : ∀ k, pollStep (fetch k) = none) :
    ∀ fuel i, waitFrom fetch i fuel = none ∧ fetchesFrom fetch i fuel = fuel := by
  intro fuel
  induction fuel with
  | zero => intro i; exact ⟨rfl, rfl⟩
  | succ m ih =>
    intro i
    constructor
    · simp [waitFrom, hrun i, (ih (i + 1)).1]
    · simp only [fetchesFrom, hrun i, (ih (i + 1)).2]
      omega

/-- A loop-body iteration only returns successfully on a status that
differs from `"RUNNING"`. -/
theorem pollStep_done_ne {r : FetchResult} {s : String}
    (h : pollStep r = some (PollOutcome.done s)) : s ≠ "RUNNING" := by
  unfold pollStep at h
  split at h
  · split at h
    · simp at h
    · split at h
      · simp at h
      · rename_i t _ _ ht
        simp only [Option.some.injEq, PollOutcome.done.injEq] at h
        subst h
        exact ht
  · simp at h

/-- The loop never reports a successful (`done`) outcome carrying the
sentinel `"RUNNING"`. -/
theorem waitFrom_done_ne (fetch : Nat → FetchResult) :
    ∀ fuel i n s, waitFrom fetch i fuel = some (n, PollOutcome.done s) →
      s ≠ "RUNNING" := by
  intro fuel
  induction fuel with
  | zero => intro i n s h; simp [waitFrom] at h
  | succ m ih =>
    intro i n s h
    rcases hp : pollStep (fetch i) with _ | out
    · simp only [waitFrom, hp] at h
      exact ih (i + 1) n s h
    · simp only [waitFrom, hp, Option.some.injEq, Prod.mk.injEq] at h
      rw [h.2] at hp
      exact pollStep_done_ne hp

/-- `addArrayParam` contributes exactly the parameter list the spec
describes for one multi-value filter. -/
theorem addArrayParam_params (p : Resource) (name : String)
    (v : Option (List String)) :
    (addArrayParam p name v).params = p.params ++ specMultiValueParam name v := by
  rcases v with _ | (_ | ⟨x, xs⟩)
  · simp [addArrayParam, specMultiValueParam]
  · simp [addArrayParam, specMultiValueParam]
  · simp [addArrayParam, specMultiValueParam, Resource.withParam]

/-! ### Claim theorems -/

/-- Claim C1 (amended): for every poll attempt in which the status fetch
fails AND the decoded document's `status` field is present as a string,
`WaitForCompletion` returns immediately with that failure together with
the last-read status value after exactly N attempts, issuing no further
fetches and never retrying internally. (The amendment restricts the
claim to fetches whose decoded body still carries a string `status`
field: when it does not, the unchecked type assertion fires and the
process panics instead of returning the failure — see the
counterexample.) -/
theorem WaitForCompletion_failure_with_string_status
    (fetch : Nat → FetchResult) (n : Nat) (s : String) (e : GoError)
    (hrun : ∀ k, k < n → fetch k = runningOk)
    (hstatus : lookupField (fetch n).doc "status" = some (JsonVal.str s))
    (herr : (fetch n).err = some e) :
    ∀ fuel, n < fuel →
      WaitForCompletion fetch fuel = some (n + 1, PollOutcome.failed s e)
      ∧ fetchesFrom fetch 0 fuel = n + 1 := by
  intro fuel hfuel
  have hstep : pollStep (fetch n) = some (PollOutcome.failed s e) := by
    simp [pollStep, hstatus, herr]
  have hr : ∀ k, k < n → pollStep (fetch k) = none := fun k hk => by
    rw [hrun k hk]; exact pollStep_runningOk
  have h := waitFrom_stops fetch hr hstep fuel 0 (Nat.zero_le n) (by omega)
  simpa [WaitForCompletion] using h

/-- Claim C1 witness: on the sequence whose first fetch is a successful
`"RUNNING"` and whose second fetch fails with a string status still in
the body, the poller stops after exactly 2 attempts with that failure,
fetching exactly twice even with fuel for four ticks. -/
theorem WaitForCompletion_failure_with_string_status_witness :
    WaitForCompletion seqRunThenFail 4 = some (2, PollOutcome.failed "RUNNING" "boom")
    ∧ fetchesFrom seqRunThenFail 0 4 = 2 := by
  have h := WaitForCompletion_failure_with_string_status seqRunThenFail 1 "RUNNING" "boom"
    (fun k hk => by
      have : k = 0 := by omega
      subst this
      rfl)
    (by decide) (by decide) 4 (by omega)
  simpa using h

/-- Claim C1 counterexample: a transport failure on the very first poll
attempt whose response body decoded to an empty document does NOT make
`WaitForCompletion` return the failure together with a last-read status
value — the unchecked assertion `taskInfo["status"].(string)` fires and
the outcome is a panic, not an error return (`isFailed` is `false`). -/
theorem WaitForCompletion_failure_counterexample :
    WaitForCompletion (fun _ => { doc := [], err := some "connection refused" }) 3
      = some (1, PollOutcome.panicked)
    ∧ PollOutcome.panicked.isFailed = false :=
  ⟨by decide, rfl⟩

/-- Claim C2: the claim states that for a task-status document whose
`status` field is absent or not a string, `WaitForCompletion` surfaces
a reported decoding error and its crash branch is unreachable. The code
does the opposite: `status := taskInfo["status"].(string)` is an
unchecked type assertion evaluated before `err` is inspected, so on a
missing field, on a non-string field, and on any fetch failure whose
body left the document empty, the loop body panics instead of returning
an error. This theorem evaluates the code at those failing inputs. -/
theorem WaitForCompletion_panics_on_malformed_status :
    pollStep { doc := [], err := none } = some PollOutcome.panicked
    ∧ pollStep { doc := [("status", JsonVal.other)], err := none }
      = some PollOutcome.panicked
    ∧ WaitForCompletion (fun _ => { doc := [], err := none }) 1
      = some (1, PollOutcome.panicked) :=
  ⟨rfl, by decide, by decide⟩

/-- Claim C3: for every status value other than `"RUNNING"`,
`WaitForCompletion` returns that value with no error on the first poll
in which it is observed (after exactly `n + 1` attempts when the first
`n` polls saw `"RUNNING"`), and performs no further polls regardless of
remaining fuel. -/
theorem WaitForCompletion_terminal_first_observation
    (fetch : Nat → FetchResult) (n : Nat) (s : String)
    (hrun : ∀ k, k < n → fetch k = runningOk)
    (hstatus : lookupField (fetch n).doc "status" = some (JsonVal.str s))
    (herr : (fetch n).err = none)
    (hterm : s ≠ "RUNNING") :
    ∀ fuel, n < fuel →
      WaitForCompletion fetch fuel = some (n + 1, PollOutcome.done s)
      ∧ fetchesFrom fetch 0 fuel = n + 1 := by
  intro fuel hfuel
  have hstep : pollStep (fetch n) = some (PollOutcome.done s) := by
    simp [pollStep, hstatus, herr, hterm]
  have hr : ∀ k, k < n → pollStep (fetch k) = none := fun k hk => by
    rw [hrun k hk]; exact pollStep_runningOk
  have h := waitFrom_stops fetch hr hstep fuel 0 (Nat.zero_le n) (by omega)
  simpa [WaitForCompletion] using h

/-- Claim C3 witness: the scenario sequence RUNNING, RUNNING, SUCCEEDED
returns `"SUCCEEDED"` after exactly three polls; no fourth poll occurs
even with fuel for ten ticks. -/
theorem WaitForCompletion_terminal_first_observation_witness :
    WaitForCompletion seqRRS 10 = some (3, PollOutcome.done "SUCCEEDED")
    ∧ fetchesFrom seqRRS 0 10 = 3 := by
  have h := WaitForCompletion_terminal_first_observation seqRRS 2 "SUCCEEDED"
    (fun k hk => by simp [seqRRS, hk])
    (by decide) (by decide) (by decide) 10 (by omega)
  simpa using h

/-- Claim C4: while every status fetch succeeds and returns
`"RUNNING"`, `WaitForCompletion` never returns (it is `none` for every
fuel) and issues exactly one fetch per tick; the ticker period is the
fixed 10 seconds, attempt `i` fires at `10 * (i + 1)` seconds, and the
first fetch happens only after the first interval elapses (at time
`tickInterval`, not at entry). -/
theorem WaitForCompletion_running_never_returns
    (fetch : Nat → FetchResult)
    (h : ∀ i, lookupField (fetch i).doc "status" = some (JsonVal.str "RUNNING")
          ∧ (fetch i).err = none) :
    (∀ fuel, WaitForCompletion fetch fuel = none)
    ∧ (∀ fuel, fetchesFrom fetch 0 fuel = fuel)
    ∧ tickInterval = 10
    ∧ (∀ i, fetchTime i = 10 * (i + 1))
    ∧ fetchTime 0 = tickInterval := by
  have hstep : ∀ k, pollStep (fetch k) = none := fun k => by
    simp [pollStep, (h k).1, (h k).2]
  exact ⟨fun fuel => (waitFrom_none_of_all_running fetch hstep fuel 0).1,
         fun fuel => (waitFrom_none_of_all_running fetch hstep fuel 0).2,
         rfl, fun i => rfl, rfl⟩

/-- Claim C4 witness: with every fetch succeeding at `"RUNNING"`, five
ticks of fuel produce five fetches and no return. -/
theorem WaitForCompletion_running_never_returns_witness :
    WaitForCompletion (fun _ => runningOk) 5 = none
    ∧ fetchesFrom (fun _ => runningOk) 0 5 = 5
    ∧ tickInterval = 10 := by
  have h := WaitForCompletion_running_never_returns (fun _ => runningOk)
    (fun _ => ⟨rfl, rfl⟩)
  exact ⟨h.1 5, h.2.1 5, h.2.2.1⟩

/-- Claim C5: every multi-value filter (owners in `ListSoftwareDrafts`;
bundle_types, names, vendors, versions in `GetDepotContentComponents`)
is entirely absent from the issued request when the input collection is
nil or empty, and otherwise present exactly once, comma-joined in input
order — the request's parameter list is exactly the concatenation of
the per-filter contributions; in particular `vendors = ["VMware","Dell"]`
with all other filters nil yields exactly `vendors=VMware,Dell`. -/
theorem multiValueParams_joined_or_absent
    (bundleTypes names vendors versions : Option (List String))
    (minVersion : Option String) (clusterId : String)
    (owners : Option (List String)) :
    (GetDepotContentComponentsRequest bundleTypes names vendors versions
        minVersion).resource.params
      = specMultiValueParam "bundle_types" bundleTypes
        ++ specMultiValueParam "names" names
        ++ specMultiValueParam "vendors" vendors
        ++ specMultiValueParam "versions" versions
        ++ (match minVersion with | some v => [("min_version", v)] | none => [])
    ∧ (ListSoftwareDraftsRequest clusterId owners).resource.params
      = specMultiValueParam "owners" owners
    ∧ (GetDepotContentComponentsRequest none none (some ["VMware", "Dell"])
        none none).resource.params
      = [("vendors", "VMware,Dell")] := by
  refine ⟨?_, ?_, by decide⟩
  · rcases minVersion with _ | v <;>
      simp [GetDepotContentComponentsRequest, addArrayParam_params,
        Resource.base, Resource.withParam, List.append_assoc]
  · rcases owners with _ | (_ | ⟨x, xs⟩) <;>
      simp [ListSoftwareDraftsRequest, specMultiValueParam,
        Resource.base, Resource.withParam]

/-- Claim C6: `DeleteOfflineDepot` issues exactly one request (the
DELETE on `/api/esx/settings/depots/offline/{depotId}?vmw-task=true`)
and returns the single exchange's error channel unchanged, with no
retry at this layer — its request log has exactly one entry for every
possible exchange outcome, including any HTTP-level failure. -/
theorem DeleteOfflineDepot_single_exchange
    (depotId : String) (doEx : Request → Exchange String) :
    (DeleteOfflineDepot depotId doEx).2 = [DeleteOfflineDepotRequest depotId]
    ∧ (DeleteOfflineDepot depotId doEx).1.2
      = (doEx (DeleteOfflineDepotRequest depotId)).err
    ∧ (DeleteOfflineDepot depotId doEx).1.1
      = (doEx (DeleteOfflineDepotRequest depotId)).decoded
    ∧ (DeleteOfflineDepotRequest depotId).method = Method.DELETE
    ∧ (DeleteOfflineDepotRequest depotId).resource.fullPath
      = "/api/esx/settings/depots/offline/" ++ depotId
    ∧ (DeleteOfflineDepotRequest depotId).resource.params = [("vmw-task", "true")] :=
  ⟨rfl, rfl, rfl, rfl, rfl, rfl⟩

/-- Claim C7: encoding a `SettingsDepotsOfflineCreateSpec` to JSON and
decoding it back yields the original field-for-field, and the key list
of the encoded object contains each omit-if-empty key (description,
file_id, location, owner_data) exactly when the field is non-empty —
empty fields are absent rather than null or empty-string. -/
theorem createSpec_json_roundtrip (s : SettingsDepotsOfflineCreateSpec) :
    decodeCreateSpec (encodeCreateSpec s) = s
    ∧ (encodeCreateSpec s).map Prod.fst
      = (if s.Description = "" then [] else ["description"])
        ++ ["source_type"]
        ++ (if s.FileId = "" then [] else ["file_id"])
        ++ (if s.Location = "" then [] else ["location"])
        ++ (if s.OwnerData = "" then [] else ["owner_data"]) := by
  rcases s with ⟨d, st, f, l, o⟩
  constructor
  · simp only [encodeCreateSpec, decodeCreateSpec]
    split_ifs <;> simp_all [lookupStr]
  · simp only [encodeCreateSpec]
    split_ifs <;> simp

/-- Claim C8: `CommitSoftwareDraft` issues exactly one POST request on
`/api/esx/settings/clusters/{clusterId}/software/drafts/{draftId}` with
exactly the query parameters `action=commit` and `vmw-task=true`,
carrying the spec as JSON body, and returns the response decoded as a
string (the task id) together with the exchange's error channel. -/
theorem CommitSoftwareDraft_request_shape
    (clusterId draftId : String) (spec : TaskDoc)
    (doEx : Request → Exchange String) :
    (CommitSoftwareDraft clusterId draftId spec doEx).2
      = [CommitSoftwareDraftRequest clusterId draftId spec]
    ∧ (CommitSoftwareDraftRequest clusterId draftId spec).method = Method.POST
    ∧ (CommitSoftwareDraftRequest clusterId draftId spec).resource.fullPath
      = "/api/esx/settings/clusters/" ++ clusterId ++ "/software/drafts/" ++ draftId
    ∧ (CommitSoftwareDraftRequest clusterId draftId spec).resource.params
      = [("action", "commit"), ("vmw-task", "true")]
    ∧ (CommitSoftwareDraftRequest clusterId draftId spec).body = some spec
    ∧ (CommitSoftwareDraft clusterId draftId spec doEx).1
      = ((doEx (CommitSoftwareDraftRequest clusterId draftId spec)).decoded,
         (doEx (CommitSoftwareDraftRequest clusterId draftId spec)).err) := by
  refine ⟨rfl, rfl, ?_, rfl, rfl, rfl⟩
  simp only [CommitSoftwareDraftRequest, Resource.base, Resource.withSubpath,
    Resource.withParam, Resource.fullPath, SoftwareDraftsPathFor,
    List.nil_append, List.foldl_cons, List.foldl_nil, String.append_assoc]
  rfl

/-- Claim C9: whenever `WaitForCompletion` returns with a nil error (a
`done` outcome), the returned status string is never the non-terminal
sentinel `"RUNNING"`. -/
theorem WaitForCompletion_success_not_running
    (fetch : Nat → FetchResult) (fuel n : Nat) (s : String)
    (h : WaitForCompletion fetch fuel = some (n, PollOutcome.done s)) :
    s ≠ "RUNNING" :=
  waitFrom_done_ne fetch fuel 0 n s h

/-- Claim C9 witness: a first fetch observing `"SUCCEEDED"` returns it
successfully, and the theorem yields that it differs from `"RUNNING"`. -/
theorem WaitForCompletion_success_not_running_witness :
    WaitForCompletion (fun _ => succeededOk) 1 = some (1, PollOutcome.done "SUCCEEDED")
    ∧ ("SUCCEEDED" : String) ≠ "RUNNING" :=
  ⟨by decide,
   WaitForCompletion_success_not_running (fun _ => succeededOk) 1 1 "SUCCEEDED" (by decide)⟩

/-- Claim C10: in every CLI `Run` method (`component ls`, offline-depot
`ls`, `component info`), the error returned by `RestClient` is never
checked before the client is used: the outcome is identical whether
client construction failed or not, and it is entirely determined by the
manager call on the (possibly nil) client — a connection-setup failure
is not surfaced as the `RestClient` error. -/
theorem cliRun_ignores_restClient_error {α : Type}
    (rc : Option RestClient) (e : GoError)
    (f g k : Option RestClient → α × Option GoError) :
    componentLsRun (rc, some e) f = componentLsRun (rc, none) f
    ∧ offlineLsRun (rc, some e) g = offlineLsRun (rc, none) g
    ∧ componentInfoRun (rc, some e) k = componentInfoRun (rc, none) k
    ∧ componentLsRun (rc, some e) f
      = (match f rc with
         | (_, some e') => RunOutcome.failed e'
         | (d, none) => RunOutcome.wrote d) :=
  ⟨rfl, rfl, rfl, rfl⟩

end Govmomi
